import Mathlib

/-!
Verification development for the ragbot_nutri contextual response pipeline.

This file gives a shallow embedding, in Lean 4, of the core of the
repository: `rag.py` (`get_contextual_response`, `format_chat_history`,
the tool-dispatch branch and the retrieval branch), `knowledge_manager.py`
(`_get_latest_file_content`, `get_prompts`) and `agent_tools.py`
(`log_customer_data`, `generate_progress_report`).  External effects
(language-model calls, vector-store retrieval, the file system, the
SQLite progress table) are modelled as explicit parameters of an
environment record, and Python exceptions are modelled with `Except`.
-/

namespace Ragbot

/-- JSON values as produced by Python's `json.loads`.  Numbers keep their
source lexeme: the pipeline never does arithmetic on them.  Objects keep
the raw key/value list in source order; lookups take the last binding for
a key, which matches the dict semantics of `json.loads` on duplicate
keys. -/
inductive Json where
  | null : Json
  | bool (b : Bool) : Json
  | num (lexeme : String) : Json
  | str (s : String) : Json
  | arr (items : List Json) : Json
  | obj (members : List (String × Json)) : Json

mutual

/-- Decidable equality on JSON values. -/
def jsonDecEq : (a b : Json) → Decidable (a = b)
  | Json.null, Json.null => isTrue rfl
  | Json.null, Json.bool _ => isFalse (fun h => Json.noConfusion h)
  | Json.null, Json.num _ => isFalse (fun h => Json.noConfusion h)
  | Json.null, Json.str _ => isFalse (fun h => Json.noConfusion h)
  | Json.null, Json.arr _ => isFalse (fun h => Json.noConfusion h)
  | Json.null, Json.obj _ => isFalse (fun h => Json.noConfusion h)
  | Json.bool _, Json.null => isFalse (fun h => Json.noConfusion h)
  | Json.bool a, Json.bool b =>
    match decEq a b with
    | isTrue h => isTrue (by rw [h])
    | isFalse h => isFalse (fun hh => h (by cases hh; rfl))
  | Json.bool _, Json.num _ => isFalse (fun h => Json.noConfusion h)
  | Json.bool _, Json.str _ => isFalse (fun h => Json.noConfusion h)
  | Json.bool _, Json.arr _ => isFalse (fun h => Json.noConfusion h)
  | Json.bool _, Json.obj _ => isFalse (fun h => Json.noConfusion h)
  | Json.num _, Json.null => isFalse (fun h => Json.noConfusion h)
  | Json.num _, Json.bool _ => isFalse (fun h => Json.noConfusion h)
  | Json.num a, Json.num b =>
    match decEq a b with
    | isTrue h => isTrue (by rw [h])
    | isFalse h => isFalse (fun hh => h (by cases hh; rfl))
  | Json.num _, Json.str _ => isFalse (fun h => Json.noConfusion h)
  | Json.num _, Json.arr _ => isFalse (fun h => Json.noConfusion h)
  | Json.num _, Json.obj _ => isFalse (fun h => Json.noConfusion h)
  | Json.str _, Json.null => isFalse (fun h => Json.noConfusion h)
  | Json.str _, Json.bool _ => isFalse (fun h => Json.noConfusion h)
  | Json.str _, Json.num _ => isFalse (fun h => Json.noConfusion h)
  | Json.str a, Json.str b =>
    match decEq a b with
    | isTrue h => isTrue (by rw [h])
    | isFalse h => isFalse (fun hh => h (by cases hh; rfl))
  | Json.str _, Json.arr _ => isFalse (fun h => Json.noConfusion h)
  | Json.str _, Json.obj _ => isFalse (fun h => Json.noConfusion h)
  | Json.arr _, Json.null => isFalse (fun h => Json.noConfusion h)
  | Json.arr _, Json.bool _ => isFalse (fun h => Json.noConfusion h)
  | Json.arr _, Json.num _ => isFalse (fun h => Json.noConfusion h)
  | Json.arr _, Json.str _ => isFalse (fun h => Json.noConfusion h)
  | Json.arr xs, Json.arr ys =>
    match jsonListDecEq xs ys with
    | isTrue h => isTrue (by rw [h])
    | isFalse h => isFalse (fun hh => h (by cases hh; rfl))
  | Json.arr _, Json.obj _ => isFalse (fun h => Json.noConfusion h)
  | Json.obj _, Json.null => isFalse (fun h => Json.noConfusion h)
  | Json.obj _, Json.bool _ => isFalse (fun h => Json.noConfusion h)
  | Json.obj _, Json.num _ => isFalse (fun h => Json.noConfusion h)
  | Json.obj _, Json.str _ => isFalse (fun h => Json.noConfusion h)
  | Json.obj _, Json.arr _ => isFalse (fun h => Json.noConfusion h)
  | Json.obj xs, Json.obj ys =>
    match jsonMembersDecEq xs ys with
    | isTrue h => isTrue (by rw [h])
    | isFalse h => isFalse (fun hh => h (by cases hh; rfl))

/-- Decidable equality on lists of JSON values. -/
def jsonListDecEq : (a b : List Json) → Decidable (a = b)
  | [], [] => isTrue rfl
  | [], _ :: _ => isFalse (fun h => List.noConfusion h)
  | _ :: _, [] => isFalse (fun h => List.noConfusion h)
  | x :: xs, y :: ys =>
    match jsonDecEq x y with
    | isFalse h1 => isFalse (fun h => h1 (by cases h; rfl))
    | isTrue h1 =>
      match jsonListDecEq xs ys with
      | isTrue h2 => isTrue (by rw [h1, h2])
      | isFalse h2 => isFalse (fun h => h2 (by cases h; rfl))

/-- Decidable equality on JSON object member lists. -/
def jsonMembersDecEq : (a b : List (String × Json)) → Decidable (a = b)
  | [], [] => isTrue rfl
  | [], _ :: _ => isFalse (fun h => List.noConfusion h)
  | _ :: _, [] => isFalse (fun h => List.noConfusion h)
  | (k, v) :: xs, (k2, v2) :: ys =>
    match decEq k k2 with
    | isFalse h0 => isFalse (fun h => h0 (by cases h; rfl))
    | isTrue h0 =>
      match jsonDecEq v v2 with
      | isFalse h1 => isFalse (fun h => h1 (by cases h; rfl))
      | isTrue h1 =>
        match jsonMembersDecEq xs ys with
        | isTrue h2 => isTrue (by rw [h0, h1, h2])
        | isFalse h2 => isFalse (fun h => h2 (by cases h; rfl))

end

instance : DecidableEq Json := jsonDecEq

/-- Hexadecimal digit value, used for JSON `\uXXXX` escapes. -/
def hexVal (c : Char) : Option Nat :=
  if '0' ≤ c ∧ c ≤ '9' then some (c.toNat - '0'.toNat)
  else if 'a' ≤ c ∧ c ≤ 'f' then some (c.toNat - 'a'.toNat + 10)
  else if 'A' ≤ c ∧ c ≤ 'F' then some (c.toNat - 'A'.toNat + 10)
  else none

/-- JSON insignificant whitespace characters. -/
def isJsonWs (c : Char) : Bool :=
  c = ' ' || c = '\t' || c = '\n' || c = '\r'

/-- Drop leading JSON whitespace. -/
def skipWs : List Char → List Char
  | [] => []
  | c :: cs => if isJsonWs c then skipWs cs else c :: cs

/-- Scan the body of a JSON string literal (the opening quote already
consumed), decoding escapes; returns the decoded characters and the rest
of the input after the closing quote. -/
def scanStringBody : List Char → Option (List Char × List Char)
  | [] => none
  | '"' :: rest => some ([], rest)
  | '\\' :: 'u' :: a :: b :: c :: d :: rest =>
    match hexVal a, hexVal b, hexVal c, hexVal d with
    | some ha, some hb, some hc, some hd =>
      (scanStringBody rest).map
        (fun p => (Char.ofNat (((ha * 16 + hb) * 16 + hc) * 16 + hd) :: p.1, p.2))
    | _, _, _, _ => none
  | '\\' :: e :: rest =>
    let decoded : Option Char :=
      if e = '"' then some '"'
      else if e = '\\' then some '\\'
      else if e = '/' then some '/'
      else if e = 'b' then some (Char.ofNat 8)
      else if e = 'f' then some (Char.ofNat 12)
      else if e = 'n' then some '\n'
      else if e = 'r' then some '\r'
      else if e = 't' then some '\t'
      else none
    match decoded with
    | some dc => (scanStringBody rest).map (fun p => (dc :: p.1, p.2))
    | none => none
  | c :: rest => (scanStringBody rest).map (fun p => (c :: p.1, p.2))

/-- Longest prefix of decimal digits, and the rest. -/
def takeDigits : List Char → List Char × List Char
  | [] => ([], [])
  | c :: cs =>
    if c.isDigit then
      let p := takeDigits cs
      (c :: p.1, p.2)
    else ([], c :: cs)

/-- Integer part of a JSON number: `0`, or a nonzero digit followed by
digits. -/
def scanIntPart : List Char → Option (List Char × List Char)
  | [] => none
  | '0' :: rest => some (['0'], rest)
  | c :: rest =>
    if c.isDigit then
      let p := takeDigits rest
      some (c :: p.1, p.2)
    else none

/-- Optional fractional part of a JSON number. -/
def scanFracPart : List Char → Option (List Char × List Char)
  | '.' :: rest =>
    let p := takeDigits rest
    if p.1.isEmpty then none else some ('.' :: p.1, p.2)
  | cs => some ([], cs)

/-- Optional exponent part of a JSON number. -/
def scanExpPart : List Char → Option (List Char × List Char)
  | [] => some ([], [])
  | c :: rest =>
    if c = 'e' ∨ c = 'E' then
      let signAndRest : List Char × List Char :=
        match rest with
        | s :: r => if s = '+' ∨ s = '-' then ([s], r) else ([], rest)
        | [] => ([], [])
      let p := takeDigits signAndRest.2
      if p.1.isEmpty then none else some (c :: (signAndRest.1 ++ p.1), p.2)
    else some ([], c :: rest)

/-- Scan a JSON number lexeme. -/
def scanNumber (cs : List Char) : Option (List Char × List Char) := do
  let signAndRest : List Char × List Char :=
    match cs with
    | '-' :: r => (['-'], r)
    | _ => ([], cs)
  let ip ← scanIntPart signAndRest.2
  let fp ← scanFracPart ip.2
  let ep ← scanExpPart fp.2
  some (signAndRest.1 ++ ip.1 ++ fp.1 ++ ep.1, ep.2)

mutual

/-- Fuel-indexed recursive-descent scan of one JSON value, modelling
Python's `json.loads` grammar. -/
def scanJsonValue : Nat → List Char → Option (Json × List Char)
  | 0, _ => none
  | fuel + 1, cs =>
    match skipWs cs with
    | 'n' :: 'u' :: 'l' :: 'l' :: r => some (Json.null, r)
    | 't' :: 'r' :: 'u' :: 'e' :: r => some (Json.bool true, r)
    | 'f' :: 'a' :: 'l' :: 's' :: 'e' :: r => some (Json.bool false, r)
    | '"' :: r => (scanStringBody r).map (fun p => (Json.str (String.mk p.1), p.2))
    | '\x7b' :: r =>
      match skipWs r with
      | '\x7d' :: r2 => some (Json.obj [], r2)
      | r2 => (scanJsonMembers fuel r2).map (fun p => (Json.obj p.1, p.2))
    | '[' :: r =>
      match skipWs r with
      | ']' :: r2 => some (Json.arr [], r2)
      | r2 => (scanJsonItems fuel r2).map (fun p => (Json.arr p.1, p.2))
    | cs2 => (scanNumber cs2).map (fun p => (Json.num (String.mk p.1), p.2))

/-- Scan the nonempty member list of a JSON object, up to and including
the closing brace. -/
def scanJsonMembers : Nat → List Char → Option (List (String × Json) × List Char)
  | 0, _ => none
  | fuel + 1, cs =>
    match skipWs cs with
    | '"' :: r =>
      match scanStringBody r with
      | none => none
      | some (kcs, r2) =>
        match skipWs r2 with
        | ':' :: r3 =>
          match scanJsonValue fuel r3 with
          | none => none
          | some (v, r4) =>
            match skipWs r4 with
            | ',' :: r5 =>
              (scanJsonMembers fuel r5).map
                (fun p => ((String.mk kcs, v) :: p.1, p.2))
            | '\x7d' :: r5 => some ([(String.mk kcs, v)], r5)
            | _ => none
        | _ => none
    | _ => none

/-- Scan the nonempty item list of a JSON array, up to and including the
closing bracket. -/
def scanJsonItems : Nat → List Char → Option (List Json × List Char)
  | 0, _ => none
  | fuel + 1, cs =>
    match scanJsonValue fuel cs with
    | none => none
    | some (v, r) =>
      match skipWs r with
      | ',' :: r2 => (scanJsonItems fuel r2).map (fun p => (v :: p.1, p.2))
      | ']' :: r2 => some ([v], r2)
      | _ => none

end

/-- Whitespace characters stripped by Python's `str.strip()`. -/
def isPySpace (c : Char) : Bool :=
  c = ' ' || c = '\t' || c = '\n' || c = '\r' || c = '\x0b' || c = '\x0c'

/-- Model of Python's `str.strip()`: leading and trailing whitespace
removed. -/
def pyStrip (s : String) : String :=
  String.mk (((s.data.dropWhile isPySpace).reverse.dropWhile isPySpace).reverse)

/-- Model of Python's `str.startswith` on a single-character prefix. -/
def strFirstIs (s : String) (c : Char) : Bool :=
  match s.data with
  | [] => false
  | a :: _ => a = c

/-- Model of Python's `str.endswith` on a single-character suffix. -/
def strLastIs (s : String) (c : Char) : Bool :=
  match s.data.getLast? with
  | none => false
  | some a => a = c

/-- Model of Python's `str.endswith` on an arbitrary suffix. -/
def pyEndsWith (s suffix : String) : Bool :=
  suffix.data.isSuffixOf s.data

/-- Model of Python's `json.loads` on a string: the whole input must be a
single JSON value, with optional surrounding whitespace.  Returns `none`
exactly where `json.loads` raises `json.JSONDecodeError`. -/
def jsonLoads (s : String) : Option Json :=
  match scanJsonValue (s.data.length + 2) s.data with
  | some (v, rest) => if (skipWs rest).isEmpty then some v else none
  | none => none

/-- Model of Python's `dict.get` on a parsed JSON object: last binding of
the key wins (as duplicate keys overwrite in `json.loads`); `none` on a
missing key or a non-object. -/
def pyGet : Json → String → Option Json
  | Json.obj kvs, k => (kvs.reverse.find? (fun p => p.1 == k)).map (fun p => p.2)
  | _, _ => none

/-- Whether a number lexeme denotes zero: every digit of its mantissa is
`0` (sign, decimal point and any exponent do not affect zero-ness). -/
def numLexemeIsZero (lexeme : String) : Bool :=
  (lexeme.data.takeWhile (fun c => c ≠ 'e' ∧ c ≠ 'E')).all
    (fun c => !c.isDigit || c = '0')

/-- Model of Python truthiness on values decoded by `json.loads`:
`None`, `False`, numeric zero, the empty string, the empty list and the
empty dict are falsy; everything else is truthy. -/
def pyTruthy : Json → Bool
  | Json.null => false
  | Json.bool b => b
  | Json.num lexeme => !numLexemeIsZero lexeme
  | Json.str s => s ≠ ""
  | Json.arr items => !items.isEmpty
  | Json.obj members => !members.isEmpty

/-- Model of Python `str()` as used in f-strings, on values decoded by
`json.loads`.  The pipeline only relies on the rendering of strings and
`None`; containers are rendered as placeholder markers. -/
def pyStr : Json → String
  | Json.null => "None"
  | Json.bool true => "True"
  | Json.bool false => "False"
  | Json.num lexeme => lexeme
  | Json.str s => s
  | Json.arr _ => "<list>"
  | Json.obj _ => "<dict>"

/-- Python `str()` rendering of an optional value (`None` for `none`). -/
def pyStrOpt : Option Json → String
  | none => "None"
  | some j => pyStr j

/- ===================== knowledge_manager.py ===================== -/

/-- A file in a directory: name, modification time and text content. -/
structure FileEnt where
  name : String
  mtime : Nat
  content : String
deriving DecidableEq

/-- The file system as seen by `knowledge_manager.py`: a map from a
directory path to its files, `none` when the directory does not exist. -/
abbrev FS : Type := String → Option (List FileEnt)

/-- Path constant `INSTRUCTIONS_PATH` of `knowledge_manager.py`
(relative form; the absolute prefix is irrelevant to the properties). -/
def INSTRUCTIONS_PATH : String := "data/instructions"

/-- Path constant `PROMOS_PATH` of `knowledge_manager.py`. -/
def PROMOS_PATH : String := "data/promos"

/-- The tenant-scoped instruction directory
`os.path.join(INSTRUCTIONS_PATH, str(user_id))`. -/
def userInstructionsDir (user_id : String) : String :=
  INSTRUCTIONS_PATH ++ "/" ++ user_id

/-- The `.txt` files of a directory listing, as filtered by
`_get_latest_file_content`. -/
def txtFilesOf (files : List FileEnt) : List FileEnt :=
  files.filter (fun f => pyEndsWith f.name ".txt")

/-- Model of Python's `max(files, key=os.path.getmtime)`: left fold that
replaces the current maximum only on a strictly greater key, so the
first file attaining the maximal modification time wins. -/
def pyMaxByMtime (a : FileEnt) (l : List FileEnt) : FileEnt :=
  l.foldl (fun acc b => if b.mtime > acc.mtime then b else acc) a

/-- Embedding of `_get_latest_file_content` (knowledge_manager.py
173-184): empty string for a missing directory or no `.txt` files,
otherwise the stripped content of the most recently modified `.txt`
file. -/
def getLatestFileContent (fs : FS) (directory : String) : String :=
  match fs directory with
  | none => ""
  | some files =>
    match txtFilesOf files with
    | [] => ""
    | f :: rest => pyStrip (pyMaxByMtime f rest).content

/-- Built-in default persona instructions of `get_prompts`. -/
def DEFAULT_INSTRUCTIONS : String := "You are a helpful general assistant."

/-- Built-in default promotions text of `get_prompts`. -/
def DEFAULT_PROMOTIONS : String := "There are no special promotions at this time."

/-- Instruction-resolution steps of `get_prompts` (knowledge_manager.py
186-202): tenant-scoped newest file (guarded by a truthy `user_id` and
`os.path.exists`), falling back to the global newest file, falling back
to the built-in default. -/
def resolveInstructions (fs : FS) (user_id : String) : String :=
  let fromTenant :=
    if user_id ≠ "" ∧ (fs (userInstructionsDir user_id)).isSome then
      getLatestFileContent fs (userInstructionsDir user_id)
    else ""
  let resolved :=
    if fromTenant = "" then getLatestFileContent fs INSTRUCTIONS_PATH else fromTenant
  if resolved = "" then DEFAULT_INSTRUCTIONS else resolved

/-- Promotion-resolution step of `get_prompts` (knowledge_manager.py
200-203): global newest promo file, falling back to the built-in
default. -/
def resolvePromotions (fs : FS) : String :=
  let p := getLatestFileContent fs PROMOS_PATH
  if p = "" then DEFAULT_PROMOTIONS else p

/-- Embedding of `get_prompts` (knowledge_manager.py 186-206): the
combined instructions-plus-promotions string and the empty second
component. -/
def getPrompts (fs : FS) (user_id : String) : String × String :=
  (resolveInstructions fs user_id
    ++ "\n\n[LATEST PROMOTIONS & OFFERS]\n"
    ++ resolvePromotions fs, "")

/-- Instruction resolution as worded by the specification: the newest
tenant-scoped instruction text; if that yields nothing, the newest
global instruction text; only then the built-in default. -/
def specResolveInstructions (fs : FS) (user_id : String) : String :=
  let t := getLatestFileContent fs (userInstructionsDir user_id)
  if t ≠ "" then t
  else
    let g := getLatestFileContent fs INSTRUCTIONS_PATH
    if g ≠ "" then g
    else DEFAULT_INSTRUCTIONS

/- ===================== agent_tools.py ===================== -/

/-- A row of the `customer_progress` table.  Field values are the Python
values bound into the SQL insert (JSON-decoded tool parameters);
`log_time` is the insertion timestamp used by `ORDER BY log_time
DESC`. -/
structure ProgressRecord where
  customer_contact : Json
  user_id : Json
  metric_name : Json
  metric_value : Json
  notes : Json
  log_time : Nat
deriving DecidableEq

/-- The customer-progress store: the rows of `customer_progress` in
insertion order. -/
abbrev Db : Type := List ProgressRecord

/-- Model of `strftime('%Y-%m-%d %H:%M', log_time)`: an injective
rendering of the timestamp (the exact calendar format is irrelevant to
the verified properties). -/
def fmtLogTime (t : Nat) : String := toString t

/-- Embedding of `log_customer_data` (agent_tools.py 5-28): appends one
row and returns the confirmation message. -/
def logCustomerData (db : Db) (now : Nat)
    (customer_contact user_id metric_name metric_value notes : Json) : Db × String :=
  (db ++ [⟨customer_contact, user_id, metric_name, metric_value, notes, now⟩],
   "Successfully logged " ++ pyStr metric_name ++ " as " ++ pyStr metric_value
     ++ " for the customer.")

/-- Stable descending insertion by `log_time` (a later row goes after
earlier rows with the same time). -/
def insertDescByTime (r : ProgressRecord) : List ProgressRecord → List ProgressRecord
  | [] => [r]
  | x :: xs =>
    if x.log_time ≥ r.log_time then x :: insertDescByTime r xs else r :: x :: xs

/-- Model of `ORDER BY log_time DESC` as a stable descending sort. -/
def sortDescByTime : List ProgressRecord → List ProgressRecord
  | [] => []
  | x :: xs => insertDescByTime x (sortDescByTime xs)

/-- The rows selected by `generate_progress_report`: those matching the
customer contact and the tenant id, newest first. -/
def recordsFor (db : Db) (customer_contact user_id : Json) : List ProgressRecord :=
  sortDescByTime
    (db.filter (fun r => r.customer_contact == customer_contact && r.user_id == user_id))

/-- One report line: `- On {time}: {metric} was {value}{notes}` with the
notes suffix present only for truthy notes, as in agent_tools.py 53-55. -/
def reportLine (r : ProgressRecord) : String :=
  let notesStr :=
    if pyTruthy r.notes then " (Notes: " ++ pyStr r.notes ++ ")" else ""
  "- On " ++ fmtLogTime r.log_time ++ ": " ++ pyStr r.metric_name ++ " was "
    ++ pyStr r.metric_value ++ notesStr ++ "\n"

/-- Embedding of `generate_progress_report` (agent_tools.py 30-59): a
pure read of the store producing the report text, or the no-data
message when no rows match. -/
def generateProgressReport (db : Db) (customer_contact user_id : Json) : String :=
  let records := recordsFor db customer_contact user_id
  if records.isEmpty then
    "No progress has been logged for this customer yet."
  else
    "Here is the customer\x27s progress report so far:\n"
      ++ String.join (records.map reportLine)

/-- The operations that touch the customer-progress store. -/
inductive ToolOp where
  | logData (now : Nat) (customer_contact user_id metric_name metric_value notes : Json) : ToolOp
  | report (customer_contact user_id : Json) : ToolOp

/-- State-threading semantics of the store operations: `log_customer_data`
writes a row, `generate_progress_report` only reads. -/
def runToolOp (db : Db) : ToolOp → Db × String
  | ToolOp.logData now c u mn mv nt => logCustomerData db now c u mn mv nt
  | ToolOp.report c u => (db, generateProgressReport db c u)

/- ===================== rag.py ===================== -/

/-- A retrieved LangChain document: the passage text and its `source`
and `page` metadata entries (absent entries modelled as `none`; `page`
is kept in its rendered form). -/
structure Doc where
  page_content : String
  source : Option String
  page : Option String
deriving DecidableEq

/-- One turn of the chat history passed to `get_contextual_response`:
a dict with `role` and `content` keys. -/
structure ChatMsg where
  role : String
  content : String
deriving DecidableEq

/-- Model of Python's `str.capitalize`: first character upper-cased,
the rest lower-cased. -/
def pyCapitalize (s : String) : String :=
  match s.data with
  | [] => ""
  | c :: cs => String.mk (c.toUpper :: cs.map Char.toLower)

/-- Embedding of `format_chat_history` (rag.py 108-111). -/
def formatChatHistory (chat_history : List ChatMsg) : String :=
  if chat_history.isEmpty then "No conversation history yet."
  else
    String.intercalate "\n"
      (chat_history.map (fun m => pyCapitalize m.role ++ ": " ++ m.content))

/-- Model of `os.path.basename` on POSIX paths. -/
def pyBasename (s : String) : String :=
  (s.splitOn "/").getLastD s

/-- One block of the context string built in rag.py 189 for a retrieved
document. -/
def docContextPart (d : Doc) : String :=
  "Source: " ++ pyBasename (d.source.getD "Unknown") ++ ", Page: "
    ++ d.page.getD "N/A" ++ "\nContent: " ++ d.page_content

/-- One step of building a Python dict keyed by passage text: an
existing key has its value overwritten in place, a new key is appended
(insertion order is preserved, as for Python dicts). -/
def dictInsert (m : List (String × Doc)) (k : String) (v : Doc) : List (String × Doc) :=
  if m.any (fun p => p.1 == k) then
    m.map (fun p => if p.1 == k then (k, v) else p)
  else m ++ [(k, v)]

/-- The dict built by the comprehension
`{doc.page_content: doc for doc in all_retrieved_docs}` in rag.py 179. -/
def pyDictOfDocs (docs : List Doc) : List (String × Doc) :=
  docs.foldl (fun m d => dictInsert m d.page_content d) []

/-- Embedding of the deduplication in rag.py 179: the `.values()` view
of the passage-text-keyed dict. -/
def uniqueDocsOf (docs : List Doc) : List Doc :=
  (pyDictOfDocs docs).map (fun p => p.2)

/-- First-occurrence subsequence of a list of strings, written against
the specification's wording: keep each distinct element once, at the
position of its first occurrence. -/
def firstOccAux (seen : List String) : List String → List String
  | [] => []
  | a :: l => if a ∈ seen then firstOccAux seen l else a :: firstOccAux (a :: seen) l

/-- First-occurrence deduplication of a list of strings. -/
def firstOccurrences (l : List String) : List String :=
  firstOccAux [] l

/-- Prompts sent to the language model, as structured values: the
instantiation of `RAG_PROMPT_TEMPLATE` with its seven fields, and the
inline second-pass prompt of rag.py 160 with its three fields.
(Template instantiation is modelled structurally; the surrounding
boilerplate text is constant and plays no role in the properties.) -/
inductive Prompt where
  | agent (core_instructions custom_instructions context chat_history question
      customer_contact user_id : String) : Prompt
  | second (question tool_name result : String) : Prompt
deriving DecidableEq

/-- Stands for the constant persona text `CORE_BEHAVIOR_INSTRUCTIONS` of
rag.py 22-47; its exact wording is irrelevant to every verified
property. -/
def CORE_BEHAVIOR_INSTRUCTIONS : String :=
  "Your Persona: Eva - The Expert Nutrition Consultant."

/-- Python exceptions that can cross the boundaries of the pipeline. -/
inductive PyErr where
  | modelUnavailable (msg : String) : PyErr
  | knowledgeBaseMissing (msg : String) : PyErr
  | typeError (msg : String) : PyErr
deriving DecidableEq

/-- The dictionary returned by `get_contextual_response`. -/
structure RagResult where
  answer : String
  sources : List Doc
  knowledge_source : String
deriving DecidableEq

/-- The environment of one `get_contextual_response` call: the language
model, the two retrieval branches, the compression step, the
instruction file system, the progress store and the insertion clock.
Modelled from the spec: `get_base_retriever` and `get_user_retriever`
are imported by rag.py but missing from the source tree, so, following
the specification, the foundational branch is an oracle that may raise
`KnowledgeBaseMissing` when no index exists on disk, and the tenant
branch is `none` exactly when the tenant has no custom index. -/
structure Env where
  llm : Prompt → Except PyErr String
  baseRetrieve : String → Except PyErr (List Doc)
  userRetriever : String → Option (String → Except PyErr (List Doc))
  compress : String → List Doc → Except PyErr (List Doc)
  fs : FS
  db : Db
  now : Nat

/-- Keyword parameter names of `log_customer_data`. -/
def logParamNames : List String :=
  ["customer_contact", "user_id", "metric_name", "metric_value", "notes"]

/-- Keyword parameter names of `generate_progress_report`. -/
def reportParamNames : List String :=
  ["customer_contact", "user_id"]

/-- The keyword arguments of a `log_customer_data` call after
`**parameters` expansion. -/
structure LogKwArgs where
  customer_contact : Json
  user_id : Json
  metric_name : Json
  metric_value : Json
  notes : Json
deriving DecidableEq

/-- Model of Python keyword-argument binding for
`log_customer_data(**parameters)`: a `TypeError` when `parameters` is
not a mapping, contains a key outside the signature, or omits a
required parameter; `notes` defaults to `None`. -/
def bindLogKwargs (parameters : Json) : Except PyErr LogKwArgs :=
  match parameters with
  | Json.obj kvs =>
    if kvs.all (fun p => logParamNames.contains p.1) then
      match pyGet (Json.obj kvs) "customer_contact", pyGet (Json.obj kvs) "user_id",
          pyGet (Json.obj kvs) "metric_name", pyGet (Json.obj kvs) "metric_value" with
      | some a, some b, some c, some d =>
        Except.ok ⟨a, b, c, d, (pyGet (Json.obj kvs) "notes").getD Json.null⟩
      | _, _, _, _ =>
        Except.error (PyErr.typeError
          "log_customer_data() missing a required positional argument")
    else
      Except.error (PyErr.typeError
        "log_customer_data() got an unexpected keyword argument")
  | _ => Except.error (PyErr.typeError "argument after ** must be a mapping")

/-- Model of Python keyword-argument binding for
`generate_progress_report(**parameters)`. -/
def bindReportKwargs (parameters : Json) : Except PyErr (Json × Json) :=
  match parameters with
  | Json.obj kvs =>
    if kvs.all (fun p => reportParamNames.contains p.1) then
      match pyGet (Json.obj kvs) "customer_contact", pyGet (Json.obj kvs) "user_id" with
      | some a, some b => Except.ok (a, b)
      | _, _ =>
        Except.error (PyErr.typeError
          "generate_progress_report() missing a required positional argument")
    else
      Except.error (PyErr.typeError
        "generate_progress_report() got an unexpected keyword argument")
  | _ => Except.error (PyErr.typeError "argument after ** must be a mapping")

/-- The dispatch of rag.py 152-157: the two recognized tools are called
with `**parameters` (their own bodies never raise: they catch internal
failures and return error strings), any other `tool_name` value yields
the internal string `"Unknown tool."`. -/
def dispatchTool (env : Env) (tool_name : Option Json) (parameters : Json) :
    Except PyErr String :=
  if tool_name = some (Json.str "log_customer_data") then
    match bindLogKwargs parameters with
    | Except.error e => Except.error e
    | Except.ok a =>
      Except.ok (logCustomerData env.db env.now a.customer_contact a.user_id
        a.metric_name a.metric_value a.notes).2
  else if tool_name = some (Json.str "generate_progress_report") then
    match bindReportKwargs parameters with
    | Except.error e => Except.error e
    | Except.ok a => Except.ok (generateProgressReport env.db a.1 a.2)
  else Except.ok "Unknown tool."

/-- Context construction of the retrieval branch (rag.py 181-190): the
sentinel context for an empty deduplicated set; otherwise the compression
pass followed by per-document formatting, with its own sentinel when
compression leaves nothing. -/
def ragContext (env : Env) (user_question : String) (unique_docs : List Doc) :
    Except PyErr (String × List Doc) :=
  if unique_docs.isEmpty then
    Except.ok ("No information found on this topic.", [])
  else
    match env.compress user_question unique_docs with
    | Except.error e => Except.error e
    | Except.ok final_docs =>
      let parts := final_docs.map docContextPart
      Except.ok
        (if parts.isEmpty then "No relevant information found after compression."
         else String.intercalate "\n\n---\n\n" parts, final_docs)

/-- Context assembly and final model call of the retrieval branch
(rag.py 181-208), starting from the concatenated retrieval results:
deduplicate, build the context, invoke the model on the full template one
more time. -/
def ragFinish (env : Env) (user_question custom_instructions formatted_history
    user_id customer_contact : String) (all_retrieved_docs : List Doc)
    (knowledge_source : String) : Except PyErr RagResult :=
  match ragContext env user_question (uniqueDocsOf all_retrieved_docs) with
  | Except.error e => Except.error e
  | Except.ok s =>
    match env.llm (Prompt.agent CORE_BEHAVIOR_INSTRUCTIONS custom_instructions
        s.1 formatted_history user_question customer_contact user_id) with
    | Except.error e => Except.error e
    | Except.ok final => Except.ok ⟨final, s.2, knowledge_source⟩

/-- The retrieval branch of rag.py 169-208: the foundational retriever
is always queried; the tenant retriever, when present, is queried as
well and flips the knowledge-source label. -/
def ragBranch (env : Env) (user_question custom_instructions formatted_history
    user_id customer_contact : String) : Except PyErr RagResult :=
  match env.baseRetrieve user_question with
  | Except.error e => Except.error e
  | Except.ok baseResults =>
    match env.userRetriever user_id with
    | none =>
      ragFinish env user_question custom_instructions formatted_history user_id
        customer_contact baseResults "Foundational"
    | some uret =>
      match uret user_question with
      | Except.error e => Except.error e
      | Except.ok userResults =>
        ragFinish env user_question custom_instructions formatted_history user_id
          customer_contact (baseResults ++ userResults) "Custom + Foundational"

/-- The first prompt sent by `get_contextual_response` (rag.py 130-138). -/
def firstPrompt (env : Env) (user_question : String) (chat_history : List ChatMsg)
    (user_id customer_contact : String) : Prompt :=
  Prompt.agent CORE_BEHAVIOR_INSTRUCTIONS (getPrompts env.fs user_id).1
    "No context needed for this step." (formatChatHistory chat_history)
    user_question customer_contact user_id

/-- The brace heuristic of rag.py 144 together with the parse outcome:
the raw output is handled as a tool call exactly when this is `true`. -/
def codeDetectsToolCall (s : String) : Bool :=
  strFirstIs s '\x7b' && strLastIs s '\x7d' && (jsonLoads s).isSome

/-- Embedding of `get_contextual_response` (rag.py 118-208).  A first
model call produces raw text; text that passes the brace heuristic and
parses as JSON is dispatched as a tool call followed by a second,
phrasing model call; a `json.JSONDecodeError` is swallowed and, like
non-brace text, falls through to the retrieval branch.  All other
exceptions propagate. -/
def getContextualResponse (env : Env) (user_question : String)
    (chat_history : List ChatMsg) (user_id customer_contact : String) :
    Except PyErr RagResult :=
  let custom_instructions := (getPrompts env.fs user_id).1
  let formatted_history := formatChatHistory chat_history
  match env.llm (firstPrompt env user_question chat_history user_id customer_contact) with
  | Except.error e => Except.error e
  | Except.ok initial =>
    let response_text := pyStrip initial
    if strFirstIs response_text '\x7b' && strLastIs response_text '\x7d' then
      match jsonLoads response_text with
      | some tool_call =>
        let tool_name := pyGet tool_call "tool_name"
        let parameters := (pyGet tool_call "parameters").getD (Json.obj [])
        match dispatchTool env tool_name parameters with
        | Except.error e => Except.error e
        | Except.ok result =>
          match env.llm (Prompt.second user_question (pyStrOpt tool_name) result) with
          | Except.error e => Except.error e
          | Except.ok final => Except.ok ⟨final, [], "Agent Tool"⟩
      | none =>
        ragBranch env user_question custom_instructions formatted_history user_id
          customer_contact
    else
      ragBranch env user_question custom_instructions formatted_history user_id
        customer_contact

/- ========== specification-side definitions and concrete instances ========== -/

/-- Tool-invocation detection as worded by the specification: trimmed
output starts with a brace, ends with a brace, and parses as a
structured object containing a `tool_name` and a `parameters`
mapping. -/
def specIsToolInvocation (s : String) : Bool :=
  let t := pyStrip s
  strFirstIs t '\x7b' && strLastIs t '\x7d' &&
    match jsonLoads t with
    | some j =>
      (pyGet j "tool_name").isSome &&
        (match pyGet j "parameters" with
         | some (Json.obj _) => true
         | _ => false)
    | none => false

/-- An environment whose model is unreachable: every model call raises. -/
def envLlmDown : Env :=
  ⟨fun _ => Except.error (PyErr.modelUnavailable "request timeout"),
   fun _ => Except.ok [], fun _ => none, fun _ docs => Except.ok docs,
   fun _ => none, [], 0⟩

/-- An environment with a healthy model but no knowledge index on disk:
the foundational retrieval raises `KnowledgeBaseMissing`. -/
def envKbMissing : Env :=
  ⟨fun _ => Except.ok "Hello, how can I help?",
   fun _ => Except.error (PyErr.knowledgeBaseMissing "no vector store on disk"),
   fun _ => none, fun _ docs => Except.ok docs, fun _ => none, [], 0⟩

/-- An environment whose first model output is a JSON object with no
`tool_name` member. -/
def envNoToolName : Env :=
  ⟨fun p =>
    match p with
    | Prompt.agent _ _ "No context needed for this step." _ _ _ _ =>
      Except.ok "\x7b\"x\": \"y\"\x7d"
    | Prompt.agent _ _ _ _ _ _ _ => Except.ok "rag answer"
    | Prompt.second _ _ _ => Except.ok "phrased",
   fun _ => Except.ok [], fun _ => none, fun _ docs => Except.ok docs,
   fun _ => none, [], 0⟩

/-- An environment whose first model output is brace-delimited but not
well-formed JSON. -/
def envBraceNotJson : Env :=
  ⟨fun p =>
    match p with
    | Prompt.agent _ _ "No context needed for this step." _ _ _ _ =>
      Except.ok "\x7bnot json\x7d"
    | Prompt.agent _ _ _ _ _ _ _ => Except.ok "rag answer"
    | Prompt.second _ _ _ => Except.ok "phrased",
   fun _ => Except.ok [], fun _ => none, fun _ docs => Except.ok docs,
   fun _ => none, [], 0⟩

/-- An environment whose first model output is a well-formed tool call
naming a tool outside the closed set. -/
def envUnknownTool : Env :=
  ⟨fun p =>
    match p with
    | Prompt.agent _ _ "No context needed for this step." _ _ _ _ =>
      Except.ok "\x7b\"tool_name\": \"foo\"\x7d"
    | Prompt.agent _ _ _ _ _ _ _ => Except.ok "rag answer"
    | Prompt.second _ _ _ => Except.ok "phrased",
   fun _ => Except.ok [], fun _ => none, fun _ docs => Except.ok docs,
   fun _ => none, [], 0⟩

/-- A well-formed model output naming the recognized tool
`log_customer_data` but passing a parameter outside its signature. -/
def toolJsonBadParam : String :=
  "\x7b\"tool_name\": \"log_customer_data\", \"parameters\": \x7b\"bogus\": \"85kg\"\x7d\x7d"

/-- An environment whose first model output is `toolJsonBadParam`. -/
def envBadParams : Env :=
  ⟨fun p =>
    match p with
    | Prompt.agent _ _ "No context needed for this step." _ _ _ _ =>
      Except.ok toolJsonBadParam
    | Prompt.agent _ _ _ _ _ _ _ => Except.ok "rag answer"
    | Prompt.second _ _ _ => Except.ok "phrased",
   fun _ => Except.ok [], fun _ => none, fun _ docs => Except.ok docs,
   fun _ => none, [], 0⟩

/-- A concrete instruction file system: one tenant directory with two
`.txt` files, nothing else. -/
def fsTenantOnly : FS := fun d =>
  if d = userInstructionsDir "tenant1" then
    some [⟨"a.txt", 5, " be friendly "⟩, ⟨"b.txt", 3, "be formal"⟩]
  else none

/-- A concrete progress store with one matching row. -/
def dbOneRow : Db :=
  [⟨Json.str "cust1", Json.str "tenant1", Json.str "Weight", Json.str "80kg", Json.null, 1⟩]

/-- The store `dbOneRow` extended by a row for a different customer. -/
def dbTwoRows : Db :=
  dbOneRow ++ [⟨Json.str "cust2", Json.str "tenant1", Json.str "Weight",
    Json.str "90kg", Json.null, 2⟩]

/-- Decidable equality for pipeline outcomes, so concrete runs can be
settled by `decide`. -/
instance : DecidableEq (Except PyErr RagResult) :=
  fun a b =>
    match a, b with
    | Except.ok x, Except.ok y =>
      match decEq x y with
      | isTrue h => isTrue (by rw [h])
      | isFalse h => isFalse (fun hh => h (by cases hh; rfl))
    | Except.ok _, Except.error _ => isFalse (fun h => Except.noConfusion h)
    | Except.error _, Except.ok _ => isFalse (fun h => Except.noConfusion h)
    | Except.error e, Except.error f =>
      match decEq e f with
      | isTrue h => isTrue (by rw [h])
      | isFalse h => isFalse (fun hh => h (by cases hh; rfl))

/-- Decidable equality for tool-dispatch outcomes. -/
instance : DecidableEq (Except PyErr String) :=
  fun a b =>
    match a, b with
    | Except.ok x, Except.ok y =>
      match decEq x y with
      | isTrue h => isTrue (by rw [h])
      | isFalse h => isFalse (fun hh => h (by cases hh; rfl))
    | Except.ok _, Except.error _ => isFalse (fun h => Except.noConfusion h)
    | Except.error _, Except.ok _ => isFalse (fun h => Except.noConfusion h)
    | Except.error e, Except.error f =>
      match decEq e f with
      | isTrue h => isTrue (by rw [h])
      | isFalse h => isFalse (fun hh => h (by cases hh; rfl))

/- ===================== helper lemmas ===================== -/

/-- A directory with no `.txt` files (or absent entirely) resolves to the
empty string. -/
theorem getLatestFileContent_empty (fs : FS) (d : String)
    (h : ∀ files, fs d = some files → txtFilesOf files = []) :
    getLatestFileContent fs d = "" := by
  unfold getLatestFileContent
  cases hd : fs d with
  | none => rfl
  | some files => simp [h files hd]

/- ===================== C9 ===================== -/

/-- C9: `format_chat_history` renders the empty history as the exact
placeholder "No conversation history yet." (not the empty string), and a
nonempty history as the newline join of one role-labelled line per turn,
in the order of the turns. -/
theorem chat_history_rendering :
    formatChatHistory [] = "No conversation history yet."
      ∧ "No conversation history yet." ≠ ""
      ∧ ∀ (m : ChatMsg) (msgs : List ChatMsg),
          formatChatHistory (m :: msgs)
            = String.intercalate "\n"
                ((m :: msgs).map (fun t => pyCapitalize t.role ++ ": " ++ t.content)) := by
  refine ⟨rfl, by decide, ?_⟩
  intro m msgs
  simp [formatChatHistory]

/- ===================== C5 ===================== -/

/-- C5: with no tenant-scoped or global instruction `.txt` files the
resolved instructions are the built-in default string verbatim, and with
no promotion `.txt` files the resolved promotions are the built-in
default promo string verbatim. -/
theorem default_prompt_fallbacks (fs : FS) (user_id : String)
    (hT : ∀ files, fs (userInstructionsDir user_id) = some files → txtFilesOf files = [])
    (hG : ∀ files, fs INSTRUCTIONS_PATH = some files → txtFilesOf files = [])
    (hP : ∀ files, fs PROMOS_PATH = some files → txtFilesOf files = []) :
    resolveInstructions fs user_id = "You are a helpful general assistant."
      ∧ resolvePromotions fs = "There are no special promotions at this time." := by
  have h1 := getLatestFileContent_empty fs _ hT
  have h2 := getLatestFileContent_empty fs _ hG
  have h3 := getLatestFileContent_empty fs _ hP
  constructor
  · unfold resolveInstructions
    simp [h1, h2, DEFAULT_INSTRUCTIONS]
  · unfold resolvePromotions
    simp [h3, DEFAULT_PROMOTIONS]

/-- Witness for C5 at the empty file system. -/
theorem default_prompt_fallbacks_witness :
    resolveInstructions (fun _ => none) "tenant1" = "You are a helpful general assistant."
      ∧ resolvePromotions (fun _ => none) = "There are no special promotions at this time." :=
  default_prompt_fallbacks (fun _ => none) "tenant1"
    (fun _ h => by cases h) (fun _ h => by cases h) (fun _ h => by cases h)

/- ===================== C8 ===================== -/

/-- C8: running `generate_progress_report` leaves the progress store
unchanged (it only reads), running it twice in a row with no intervening
`log_customer_data` yields identical text, and its output depends only
on the rows matching the customer contact and tenant id. -/
theorem report_generation_idempotent (db : Db) (c u : Json) :
    (runToolOp db (ToolOp.report c u)).1 = db
      ∧ (runToolOp (runToolOp db (ToolOp.report c u)).1 (ToolOp.report c u)).2
          = (runToolOp db (ToolOp.report c u)).2
      ∧ ∀ db2 : Db,
          db.filter (fun r => r.customer_contact == c && r.user_id == u)
              = db2.filter (fun r => r.customer_contact == c && r.user_id == u) →
          generateProgressReport db c u = generateProgressReport db2 c u := by
  refine ⟨rfl, rfl, ?_⟩
  intro db2 hf
  unfold generateProgressReport recordsFor
  rw [hf]

/-- Witness for C8 on concrete stores whose matching rows agree. -/
theorem report_generation_idempotent_witness :
    dbOneRow.filter (fun r => r.customer_contact == Json.str "cust1"
        && r.user_id == Json.str "tenant1")
      = dbTwoRows.filter (fun r => r.customer_contact == Json.str "cust1"
        && r.user_id == Json.str "tenant1")
      ∧ generateProgressReport dbOneRow (Json.str "cust1") (Json.str "tenant1")
          = generateProgressReport dbTwoRows (Json.str "cust1") (Json.str "tenant1") :=
  ⟨by decide,
   (report_generation_idempotent dbOneRow (Json.str "cust1") (Json.str "tenant1")).2.2
     dbTwoRows (by decide)⟩

/- ===================== C4 ===================== -/

/-- The dict membership test of `dictInsert` agrees with key
membership. -/
theorem any_key_iff (m : List (String × Doc)) (k : String) :
    (m.any fun p => p.1 == k) = true ↔ k ∈ m.map Prod.fst := by
  simp [List.any_eq_true, List.mem_map]

/-- Inserting into the passage dict leaves the key sequence unchanged for
a present key and appends an absent key. -/
theorem dictInsert_keys (m : List (String × Doc)) (k : String) (v : Doc) :
    (dictInsert m k v).map Prod.fst
      = if k ∈ m.map Prod.fst then m.map Prod.fst else m.map Prod.fst ++ [k] := by
  by_cases hk : k ∈ m.map Prod.fst
  · have hb : (m.any fun p => p.1 == k) = true := (any_key_iff m k).mpr hk
    rw [if_pos hk]
    simp only [dictInsert, hb, if_true]
    rw [List.map_map]
    apply List.map_congr_left
    intro p _
    by_cases hpk : p.1 = k
    · simp [hpk]
    · simp [hpk]
  · have hb : (m.any fun p => p.1 == k) = false := by
      cases hb2 : (m.any fun p => p.1 == k) with
      | false => rfl
      | true => exact absurd ((any_key_iff m k).mp hb2) hk
    rw [if_neg hk]
    simp only [dictInsert, hb]
    simp

/-- Unfolding lemma for `firstOccAux` on a cons cell. -/
theorem firstOccAux_cons (seen : List String) (a : String) (l : List String) :
    firstOccAux seen (a :: l)
      = if a ∈ seen then firstOccAux seen l else a :: firstOccAux (a :: seen) l := rfl

/-- First-occurrence filtering only depends on the membership of the
seen set. -/
theorem firstOccAux_congr (l : List String) : ∀ s1 s2 : List String,
    (∀ x, x ∈ s1 ↔ x ∈ s2) → firstOccAux s1 l = firstOccAux s2 l := by
  induction l with
  | nil => intro s1 s2 _; rfl
  | cons a t ih =>
    intro s1 s2 h
    unfold firstOccAux
    by_cases ha : a ∈ s1
    · rw [if_pos ha, if_pos ((h a).mp ha)]
      exact ih s1 s2 h
    · rw [if_neg ha, if_neg (fun hc => ha ((h a).mpr hc))]
      have := ih (a :: s1) (a :: s2) (fun x => by simp [h x])
      rw [this]

/-- The key sequence of the passage dict built over an accumulator is the
accumulator's keys followed by the first occurrences of the new passage
texts. -/
theorem pyDict_keys (ds : List Doc) : ∀ m : List (String × Doc),
    (ds.foldl (fun m d => dictInsert m d.page_content d) m).map Prod.fst
      = m.map Prod.fst ++ firstOccAux (m.map Prod.fst) (ds.map Doc.page_content) := by
  induction ds with
  | nil => intro m; simp [firstOccAux]
  | cons d t ih =>
    intro m
    rw [List.foldl_cons, ih (dictInsert m d.page_content d), dictInsert_keys]
    by_cases hk : d.page_content ∈ m.map Prod.fst
    · rw [if_pos hk]
      rw [List.map_cons, firstOccAux_cons, if_pos hk]
    · rw [if_neg hk]
      rw [List.append_assoc, List.map_cons, firstOccAux_cons, if_neg hk,
        List.singleton_append]
      have := firstOccAux_congr (t.map Doc.page_content)
        (m.map Prod.fst ++ [d.page_content]) (d.page_content :: m.map Prod.fst)
        (fun x => by simp [or_comm])
      rw [this]

/-- Every dict entry built from documents keys its value's passage
text. -/
theorem pyDict_content (ds : List Doc) : ∀ m : List (String × Doc),
    (∀ p ∈ m, p.2.page_content = p.1) →
    ∀ p ∈ ds.foldl (fun m d => dictInsert m d.page_content d) m,
      p.2.page_content = p.1 := by
  induction ds with
  | nil => intro m hm; simpa using hm
  | cons d t ih =>
    intro m hm
    rw [List.foldl_cons]
    apply ih
    intro p hp
    cases hb : (m.any fun q => q.1 == d.page_content) with
    | true =>
      simp only [dictInsert, hb, if_true] at hp
      rcases List.mem_map.mp hp with ⟨q, hq, hqe⟩
      subst hqe
      by_cases hqk : q.1 = d.page_content
      · simp [hqk]
      · simp only [beq_iff_eq, hqk, if_false]
        exact hm q hq
    | false =>
      simp only [dictInsert, hb, Bool.false_eq_true, if_false] at hp
      rcases List.mem_append.mp hp with hp1 | hp2
      · exact hm p hp1
      · simp at hp2
        subst hp2
        rfl

/-- Membership in the first-occurrence filtering. -/
theorem firstOccAux_mem (l : List String) : ∀ (seen : List String) (x : String),
    x ∈ firstOccAux seen l ↔ (x ∈ l ∧ x ∉ seen) := by
  induction l with
  | nil => intro seen x; simp [firstOccAux]
  | cons a t ih =>
    intro seen x
    unfold firstOccAux
    by_cases ha : a ∈ seen
    · rw [if_pos ha, ih]
      constructor
      · rintro ⟨hx, hs⟩
        exact ⟨List.mem_cons_of_mem a hx, hs⟩
      · rintro ⟨hx, hs⟩
        rcases List.mem_cons.mp hx with hxa | hxt
        · exact absurd (hxa ▸ ha) hs
        · exact ⟨hxt, hs⟩
    · rw [if_neg ha]
      constructor
      · intro hx
        rcases List.mem_cons.mp hx with hxa | hxt
        · exact ⟨hxa ▸ List.mem_cons_self a t, hxa ▸ ha⟩
        · rcases (ih (a :: seen) x).mp hxt with ⟨hxt2, hxs⟩
          exact ⟨List.mem_cons_of_mem a hxt2,
            fun hc => hxs (List.mem_cons_of_mem a hc)⟩
      · rintro ⟨hx, hs⟩
        rcases List.mem_cons.mp hx with hxa | hxt
        · exact hxa ▸ List.mem_cons_self a _
        · by_cases hxa : x = a
          · exact hxa ▸ List.mem_cons_self a _
          · exact List.mem_cons_of_mem a ((ih (a :: seen) x).mpr
              ⟨hxt, fun hc => (List.mem_cons.mp hc).elim hxa hs⟩)

/-- The first-occurrence filtering has no duplicates. -/
theorem firstOccAux_nodup (l : List String) : ∀ seen : List String,
    (firstOccAux seen l).Nodup := by
  induction l with
  | nil => intro seen; exact List.nodup_nil
  | cons a t ih =>
    intro seen
    unfold firstOccAux
    by_cases ha : a ∈ seen
    · rw [if_pos ha]; exact ih seen
    · rw [if_neg ha]
      rw [List.nodup_cons]
      refine ⟨fun hc => ?_, ih (a :: seen)⟩
      exact ((firstOccAux_mem t (a :: seen) a).mp hc).2 (List.mem_cons_self a seen)

/-- The first-occurrence filtering is a subsequence of the input. -/
theorem firstOccAux_sublist (l : List String) : ∀ seen : List String,
    List.Sublist (firstOccAux seen l) l := by
  induction l with
  | nil => intro seen; simp [firstOccAux]
  | cons a t ih =>
    intro seen
    unfold firstOccAux
    by_cases ha : a ∈ seen
    · rw [if_pos ha]
      exact (ih seen).trans (List.sublist_cons_self a t)
    · rw [if_neg ha]
      exact List.Sublist.cons₂ a (ih (a :: seen))


/-- C4: the merged passage list of rag.py 179 keeps, text-wise, exactly
the first occurrence of each distinct passage text of the concatenation
placing foundational results before tenant results: its text sequence is
the first-occurrence dedup of the concatenated texts, which has no
duplicates, has the same members as the concatenation, and is a
subsequence of it (so it is in first-occurrence order). -/
theorem merged_passages_dedup (foundational tenant : List Doc) :
    (uniqueDocsOf (foundational ++ tenant)).map Doc.page_content
        = firstOccurrences ((foundational ++ tenant).map Doc.page_content)
      ∧ (firstOccurrences ((foundational ++ tenant).map Doc.page_content)).Nodup
      ∧ (∀ t, t ∈ firstOccurrences ((foundational ++ tenant).map Doc.page_content)
            ↔ t ∈ (foundational ++ tenant).map Doc.page_content)
      ∧ List.Sublist (firstOccurrences ((foundational ++ tenant).map Doc.page_content))
          ((foundational ++ tenant).map Doc.page_content) := by
  refine ⟨?_, firstOccAux_nodup _ [],
    fun t => by simp [firstOccurrences, firstOccAux_mem],
    firstOccAux_sublist _ []⟩
  have h1 : (uniqueDocsOf (foundational ++ tenant)).map Doc.page_content
      = (pyDictOfDocs (foundational ++ tenant)).map Prod.fst := by
    unfold uniqueDocsOf
    rw [List.map_map]
    apply List.map_congr_left
    intro p hp
    exact pyDict_content _ [] (by simp) p hp
  rw [h1]
  have h2 := pyDict_keys (foundational ++ tenant) []
  simpa [firstOccurrences, pyDictOfDocs] using h2

/- ===================== C7 ===================== -/

/-- The Python `max(files, key=getmtime)` fold returns one of its inputs
and its modification time bounds them all. -/
theorem pyMaxByMtime_spec (l : List FileEnt) : ∀ a : FileEnt,
    (pyMaxByMtime a l = a ∨ pyMaxByMtime a l ∈ l)
      ∧ a.mtime ≤ (pyMaxByMtime a l).mtime
      ∧ ∀ b ∈ l, b.mtime ≤ (pyMaxByMtime a l).mtime := by
  induction l with
  | nil => intro a; exact ⟨Or.inl rfl, le_refl _, by simp⟩
  | cons b t ih =>
    intro a
    have hstep : pyMaxByMtime a (b :: t)
        = pyMaxByMtime (if b.mtime > a.mtime then b else a) t := rfl
    by_cases hb : b.mtime > a.mtime
    · rw [hstep, if_pos hb]
      obtain ⟨hm, hge, hall⟩ := ih b
      refine ⟨?_, le_trans (le_of_lt hb) hge, ?_⟩
      · rcases hm with hm | hm
        · exact Or.inr (by rw [hm]; exact List.mem_cons_self b t)
        · exact Or.inr (List.mem_cons_of_mem b hm)
      · intro x hx
        rcases List.mem_cons.mp hx with hx | hx
        · rw [hx]; exact hge
        · exact hall x hx
    · rw [hstep, if_neg hb]
      obtain ⟨hm, hge, hall⟩ := ih a
      refine ⟨?_, hge, ?_⟩
      · rcases hm with hm | hm
        · exact Or.inl hm
        · exact Or.inr (List.mem_cons_of_mem b hm)
      · intro x hx
        rcases List.mem_cons.mp hx with hx | hx
        · rw [hx]; exact le_trans (le_of_not_lt hb) hge
        · exact hall x hx

/-- In a directory with at least one `.txt` file,
`_get_latest_file_content` returns the stripped content of a `.txt` file
whose modification time is maximal among the `.txt` files. -/
theorem getLatest_newest (fs : FS) (d : String) (files : List FileEnt)
    (hd : fs d = some files) (hne : txtFilesOf files ≠ []) :
    ∃ f, f ∈ txtFilesOf files ∧ getLatestFileContent fs d = pyStrip f.content
      ∧ ∀ g ∈ txtFilesOf files, g.mtime ≤ f.mtime := by
  cases htxt : txtFilesOf files with
  | nil => exact absurd htxt hne
  | cons f rest =>
    obtain ⟨hm, hge, hall⟩ := pyMaxByMtime_spec rest f
    refine ⟨pyMaxByMtime f rest, ?_, ?_, ?_⟩
    · rcases hm with hm | hm
      · rw [hm]; exact List.mem_cons_self f rest
      · exact List.mem_cons_of_mem f hm
    · simp [getLatestFileContent, hd, htxt]
    · intro g hg
      rcases List.mem_cons.mp hg with hg | hg
      · rw [hg]; exact hge
      · exact hall g hg

/-- C7: instruction resolution reads the newest (by modification time)
`.txt` file of the tenant-scoped directory, falls back to the newest
global instruction file when that yields nothing, and only then to the
built-in default — the source resolution coincides with this
specification-side order; and a missing directory yields the empty
string rather than an error. -/
theorem instruction_resolution_order (fs : FS) (user_id : String)
    (huid : user_id ≠ "") :
    (∀ d, fs d = none → getLatestFileContent fs d = "")
      ∧ (∀ d files, fs d = some files → txtFilesOf files ≠ [] →
          ∃ f, f ∈ txtFilesOf files ∧ getLatestFileContent fs d = pyStrip f.content
            ∧ ∀ g ∈ txtFilesOf files, g.mtime ≤ f.mtime)
      ∧ resolveInstructions fs user_id = specResolveInstructions fs user_id := by
  refine ⟨?_, fun d files hd hne => getLatest_newest fs d files hd hne, ?_⟩
  · intro d hd
    simp [getLatestFileContent, hd]
  · unfold resolveInstructions specResolveInstructions
    cases hos : fs (userInstructionsDir user_id) with
    | none =>
      have hz : getLatestFileContent fs (userInstructionsDir user_id) = "" := by
        simp [getLatestFileContent, hos]
      simp only [hos, Option.isSome_none, Bool.false_eq_true, and_false, if_false, hz]
      by_cases hg : getLatestFileContent fs INSTRUCTIONS_PATH = ""
      · simp [hg]
      · simp [hg]
    | some files =>
      simp only [hos, Option.isSome_some, and_true, huid, ne_eq, not_false_iff, if_true]
      by_cases ht : getLatestFileContent fs (userInstructionsDir user_id) = ""
      · simp only [ht, if_pos rfl]
        by_cases hg : getLatestFileContent fs INSTRUCTIONS_PATH = ""
        · simp [hg]
        · simp [hg]
      · simp [ht]

/-- Witness for C7 on a file system holding only a tenant directory with
two `.txt` files. -/
theorem instruction_resolution_order_witness :
    ("tenant1" : String) ≠ ""
      ∧ resolveInstructions fsTenantOnly "tenant1"
          = specResolveInstructions fsTenantOnly "tenant1" :=
  ⟨by decide, (instruction_resolution_order fsTenantOnly "tenant1" (by decide)).2.2⟩

/- ===================== pipeline lemmas ===================== -/

/-- A successful `ragFinish` run carries the given knowledge-source label
and an answer produced by the model on the full retrieval template. -/
theorem ragFinish_ok (env : Env) (q ci fh uid cc : String) (docs : List Doc)
    (ks : String) (r : RagResult)
    (h : ragFinish env q ci fh uid cc docs ks = Except.ok r) :
    r.knowledge_source = ks
      ∧ ∃ ctx, env.llm (Prompt.agent CORE_BEHAVIOR_INSTRUCTIONS ci ctx fh q cc uid)
          = Except.ok r.answer := by
  unfold ragFinish at h
  split at h
  · exact Except.noConfusion h
  · split at h
    · exact Except.noConfusion h
    · cases h
      exact ⟨rfl, _, by assumption⟩

/-- A successful retrieval branch labels its result according to the
presence of the tenant retriever, and its answer is a model completion
of the retrieval template. -/
theorem ragBranch_ok (env : Env) (q ci fh uid cc : String) (r : RagResult)
    (h : ragBranch env q ci fh uid cc = Except.ok r) :
    ((env.userRetriever uid = none ∧ r.knowledge_source = "Foundational")
        ∨ ((env.userRetriever uid).isSome ∧ r.knowledge_source = "Custom + Foundational"))
      ∧ ∃ ctx, env.llm (Prompt.agent CORE_BEHAVIOR_INSTRUCTIONS ci ctx fh q cc uid)
          = Except.ok r.answer := by
  unfold ragBranch at h
  split at h
  · exact Except.noConfusion h
  · split at h
    · obtain ⟨hks, hany⟩ := ragFinish_ok env q ci fh uid cc _ _ r h
      exact ⟨Or.inl ⟨by assumption, hks⟩, hany⟩
    · split at h
      · exact Except.noConfusion h
      · obtain ⟨hks, hany⟩ := ragFinish_ok env q ci fh uid cc _ _ r h
        refine ⟨Or.inr ⟨?_, hks⟩, hany⟩
        simp [*]

/-- A failing foundational retrieval propagates out of the retrieval
branch unchanged. -/
theorem ragBranch_base_error (env : Env) (q ci fh uid cc : String) (e : PyErr)
    (h : env.baseRetrieve q = Except.error e) :
    ragBranch env q ci fh uid cc = Except.error e := by
  unfold ragBranch
  rw [h]

/-- Branch structure of `get_contextual_response` after a successful
first model call: failed detection falls through to the retrieval
branch; successful detection dispatches the parsed tool call and phrases
its result with a second model call. -/
theorem getContextualResponse_branches (env : Env) (q : String)
    (chat : List ChatMsg) (uid cc : String) (o : String)
    (hllm : env.llm (firstPrompt env q chat uid cc) = Except.ok o) :
    (codeDetectsToolCall (pyStrip o) = false →
        getContextualResponse env q chat uid cc
          = ragBranch env q (getPrompts env.fs uid).1 (formatChatHistory chat) uid cc)
      ∧ ∀ j, jsonLoads (pyStrip o) = some j →
          strFirstIs (pyStrip o) '\x7b' = true →
          strLastIs (pyStrip o) '\x7d' = true →
          getContextualResponse env q chat uid cc
            = (match dispatchTool env (pyGet j "tool_name")
                  ((pyGet j "parameters").getD (Json.obj [])) with
               | Except.error e => Except.error e
               | Except.ok result =>
                 match env.llm (Prompt.second q (pyStrOpt (pyGet j "tool_name")) result) with
                 | Except.error e => Except.error e
                 | Except.ok final => Except.ok ⟨final, [], "Agent Tool"⟩) := by
  constructor
  · intro hdet
    by_cases h12 : (strFirstIs (pyStrip o) '\x7b' && strLastIs (pyStrip o) '\x7d') = true
    · cases hj : jsonLoads (pyStrip o) with
      | some j =>
        exact absurd hdet (by simp [codeDetectsToolCall, h12, hj])
      | none =>
        simp only [getContextualResponse, hllm]
        rw [if_pos h12, hj]
    · simp only [getContextualResponse, hllm]
      rw [if_neg h12]
  · intro j hj h1 h2
    have h12 : (strFirstIs (pyStrip o) '\x7b' && strLastIs (pyStrip o) '\x7d') = true := by
      rw [h1, h2]; rfl
    simp only [getContextualResponse, hllm]
    rw [if_pos h12, hj]

/- ===================== C1 ===================== -/

/-- C1 counterexample: at concrete inputs, an exception from the first
model call, and likewise a `KnowledgeBaseMissing` exception from the
foundational retrieval when no index exists, propagate out of
`get_contextual_response` instead of yielding an answer — in the
index-absent scenario no "don't have a knowledge base yet" answer is
produced. -/
theorem exception_propagation_counterexample :
    getContextualResponse envLlmDown "q" [] "tenant1" "cust1"
        = Except.error (PyErr.modelUnavailable "request timeout")
      ∧ getContextualResponse envKbMissing "q" [] "tenant1" "cust1"
          = Except.error (PyErr.knowledgeBaseMissing "no vector store on disk") :=
  ⟨by decide, by decide⟩

/-- C1 amended: `get_contextual_response` catches only JSON parse
failures in the tool-detection step; an exception raised by the
language-model call, or by the foundational retrieval when no knowledge
index exists, propagates to the caller unchanged (the transport
adapters, not this function, degrade to a safe answer). -/
theorem exception_propagation (env : Env) (q : String) (chat : List ChatMsg)
    (uid cc : String) (e : PyErr) :
    ((∀ p, env.llm p = Except.error e) →
        getContextualResponse env q chat uid cc = Except.error e)
      ∧ (∀ o, env.llm (firstPrompt env q chat uid cc) = Except.ok o →
          codeDetectsToolCall (pyStrip o) = false →
          env.baseRetrieve q = Except.error e →
          getContextualResponse env q chat uid cc = Except.error e) := by
  constructor
  · intro hl
    simp only [getContextualResponse, hl (firstPrompt env q chat uid cc)]
  · intro o ho hdet hbase
    rw [(getContextualResponse_branches env q chat uid cc o ho).1 hdet]
    exact ragBranch_base_error env q _ _ uid cc e hbase

/-- Witness for C1 at an environment whose model always raises. -/
theorem exception_propagation_witness :
    getContextualResponse envLlmDown "q" [] "tenant1" "cust1"
      = Except.error (PyErr.modelUnavailable "request timeout") :=
  (exception_propagation envLlmDown "q" [] "tenant1" "cust1"
    (PyErr.modelUnavailable "request timeout")).1 (fun _ => rfl)

/- ===================== C2 ===================== -/

/-- C2 counterexample: the output `{"x": "y"}` supplies no `tool_name`,
so by the claim it is not a tool invocation, yet the pipeline handles it
as one (dispatching an unknown tool and answering through the second
phrasing call); and for the unparseable `{not json}` the pipeline does
not return the raw text verbatim but a fresh retrieval-branch model
answer. -/
theorem toolcall_detection_counterexample :
    specIsToolInvocation "\x7b\"x\": \"y\"\x7d" = false
      ∧ getContextualResponse envNoToolName "q" [] "tenant1" "cust1"
          = Except.ok ⟨"phrased", [], "Agent Tool"⟩
      ∧ getContextualResponse envBraceNotJson "q" [] "tenant1" "cust1"
          = Except.ok ⟨"rag answer", [], "Foundational"⟩
      ∧ ("rag answer" : String) ≠ "\x7bnot json\x7d" :=
  ⟨by decide, by decide, by decide, by decide⟩

/-- C2 amended: the raw output is handled as a tool invocation exactly
when its trimmed form starts with a brace, ends with a brace and parses
as JSON — a missing `tool_name` or `parameters` member does not stop the
tool branch; when this detection fails, the pipeline falls through to
the retrieval branch, whose answer is a fresh model completion of the
retrieval template (not the raw text), and the fallthrough itself raises
nothing beyond what that branch's own calls raise. -/
theorem toolcall_detection (env : Env) (q : String) (chat : List ChatMsg)
    (uid cc : String) (o : String)
    (hllm : env.llm (firstPrompt env q chat uid cc) = Except.ok o) :
    (codeDetectsToolCall (pyStrip o) = false →
        getContextualResponse env q chat uid cc
          = ragBranch env q (getPrompts env.fs uid).1 (formatChatHistory chat) uid cc)
      ∧ (codeDetectsToolCall (pyStrip o) = true →
          ∀ r, getContextualResponse env q chat uid cc = Except.ok r →
            r.knowledge_source = "Agent Tool" ∧ r.sources = [])
      ∧ (∀ r, ragBranch env q (getPrompts env.fs uid).1 (formatChatHistory chat) uid cc
            = Except.ok r →
          r.knowledge_source ≠ "Agent Tool"
            ∧ ∃ ctx, env.llm (Prompt.agent CORE_BEHAVIOR_INSTRUCTIONS
                (getPrompts env.fs uid).1 ctx (formatChatHistory chat) q cc uid)
                = Except.ok r.answer) := by
  refine ⟨(getContextualResponse_branches env q chat uid cc o hllm).1, ?_, ?_⟩
  · intro hdet r hr
    have hsplit := hdet
    simp only [codeDetectsToolCall, Bool.and_eq_true] at hsplit
    obtain ⟨⟨h1, h2⟩, h3⟩ := hsplit
    obtain ⟨j, hj⟩ := Option.isSome_iff_exists.mp h3
    rw [(getContextualResponse_branches env q chat uid cc o hllm).2 j hj h1 h2] at hr
    split at hr
    · exact Except.noConfusion hr
    · split at hr
      · exact Except.noConfusion hr
      · cases hr
        exact ⟨rfl, rfl⟩
  · intro r hr
    obtain ⟨hks, hctx⟩ := ragBranch_ok env q _ _ uid cc r hr
    refine ⟨?_, hctx⟩
    rcases hks with ⟨_, hks⟩ | ⟨_, hks⟩ <;> rw [hks] <;> decide

/-- Witness for C2 at the environment emitting a JSON object without a
`tool_name`. -/
theorem toolcall_detection_witness :
    codeDetectsToolCall (pyStrip "\x7b\"x\": \"y\"\x7d") = true
      ∧ (⟨"phrased", [], "Agent Tool"⟩ : RagResult).knowledge_source = "Agent Tool"
      ∧ (⟨"phrased", [], "Agent Tool"⟩ : RagResult).sources = [] :=
  ⟨by decide,
   (toolcall_detection envNoToolName "q" [] "tenant1" "cust1"
      "\x7b\"x\": \"y\"\x7d" (by decide)).2.1 (by decide)
      ⟨"phrased", [], "Agent Tool"⟩ (by decide)⟩

/- ===================== C3 ===================== -/

/-- C3 counterexample: a tool-call output makes `get_contextual_response`
return `knowledge_source = "Agent Tool"`, which is outside the claimed
three-value set, even though the tenant has no custom index (so the
claim would require "Foundational"). -/
theorem knowledge_source_counterexample :
    getContextualResponse envUnknownTool "q" [] "tenant1" "cust1"
        = Except.ok ⟨"phrased", [], "Agent Tool"⟩
      ∧ envUnknownTool.userRetriever "tenant1" = none
      ∧ ("Agent Tool" : String)
          ∉ (["Foundational", "Custom + Foundational", "Error"] : List String) :=
  ⟨by decide, rfl, by decide⟩

/-- C3 amended: every result of `get_contextual_response` carries
`knowledge_source` in `{"Agent Tool", "Foundational",
"Custom + Foundational"}` — never `"Error"`; it is "Foundational" only
when no tenant retriever exists and "Custom + Foundational" only when
one exists (the "Agent Tool" label marks the tool branch). -/
theorem knowledge_source_values (env : Env) (q : String) (chat : List ChatMsg)
    (uid cc : String) (r : RagResult)
    (hr : getContextualResponse env q chat uid cc = Except.ok r) :
    (r.knowledge_source = "Agent Tool" ∨ r.knowledge_source = "Foundational"
        ∨ r.knowledge_source = "Custom + Foundational")
      ∧ r.knowledge_source ≠ "Error"
      ∧ (r.knowledge_source = "Foundational" → env.userRetriever uid = none)
      ∧ (r.knowledge_source = "Custom + Foundational" →
          (env.userRetriever uid).isSome = true) := by
  cases hl : env.llm (firstPrompt env q chat uid cc) with
  | error e =>
    have hcontra : getContextualResponse env q chat uid cc = Except.error e := by
      simp only [getContextualResponse, hl]
    rw [hcontra] at hr
    exact Except.noConfusion hr
  | ok o =>
    by_cases hdet : codeDetectsToolCall (pyStrip o) = true
    · have hsplit := hdet
      simp only [codeDetectsToolCall, Bool.and_eq_true] at hsplit
      obtain ⟨⟨h1, h2⟩, h3⟩ := hsplit
      obtain ⟨j, hj⟩ := Option.isSome_iff_exists.mp h3
      rw [(getContextualResponse_branches env q chat uid cc o hl).2 j hj h1 h2] at hr
      split at hr
      · exact Except.noConfusion hr
      · split at hr
        · exact Except.noConfusion hr
        · cases hr
          refine ⟨Or.inl rfl, ?_, ?_, ?_⟩
          · intro hc
            exact absurd (show ("Agent Tool" : String) = "Error" from hc) (by decide)
          · intro hc
            exact absurd (show ("Agent Tool" : String) = "Foundational" from hc) (by decide)
          · intro hc
            exact absurd (show ("Agent Tool" : String) = "Custom + Foundational" from hc)
              (by decide)
    · have hdf : codeDetectsToolCall (pyStrip o) = false :=
        Bool.not_eq_true _ ▸ Bool.of_not_eq_true hdet
      rw [(getContextualResponse_branches env q chat uid cc o hl).1 hdf] at hr
      obtain ⟨hks, _⟩ := ragBranch_ok env q _ _ uid cc r hr
      rcases hks with ⟨hu, hks⟩ | ⟨hu, hks⟩
      · refine ⟨Or.inr (Or.inl hks), by rw [hks]; decide, fun _ => hu, ?_⟩
        intro hc
        rw [hks] at hc
        exact absurd hc (by decide)
      · refine ⟨Or.inr (Or.inr hks), by rw [hks]; decide, ?_, fun _ => hu⟩
        intro hc
        rw [hks] at hc
        exact absurd hc (by decide)

/-- Witness for C3 at a concrete run through the retrieval branch. -/
theorem knowledge_source_values_witness :
    (("Foundational" : String) = "Agent Tool" ∨ ("Foundational" : String) = "Foundational"
        ∨ ("Foundational" : String) = "Custom + Foundational")
      ∧ ("Foundational" : String) ≠ "Error"
      ∧ (("Foundational" : String) = "Foundational" →
          envBraceNotJson.userRetriever "tenant1" = none)
      ∧ (("Foundational" : String) = "Custom + Foundational" →
          (envBraceNotJson.userRetriever "tenant1").isSome = true) :=
  knowledge_source_values envBraceNotJson "q" [] "tenant1" "cust1"
    ⟨"rag answer", [], "Foundational"⟩ (by decide)

/- ===================== C6 ===================== -/

/-- C6: a parsed tool invocation whose `tool_name` is neither
`log_customer_data` nor `generate_progress_report` dispatches to the
internal result string "Unknown tool.", and the user-visible answer is
the output of the second-pass phrasing model call on that result — the
raw result string is never returned directly as the answer. -/
theorem unknown_tool_phrased (env : Env) (q : String) (chat : List ChatMsg)
    (uid cc : String) (o : String) (j : Json)
    (hllm : env.llm (firstPrompt env q chat uid cc) = Except.ok o)
    (h1 : strFirstIs (pyStrip o) '\x7b' = true)
    (h2 : strLastIs (pyStrip o) '\x7d' = true)
    (hj : jsonLoads (pyStrip o) = some j)
    (hn1 : pyGet j "tool_name" ≠ some (Json.str "log_customer_data"))
    (hn2 : pyGet j "tool_name" ≠ some (Json.str "generate_progress_report")) :
    dispatchTool env (pyGet j "tool_name") ((pyGet j "parameters").getD (Json.obj []))
        = Except.ok "Unknown tool."
      ∧ ∀ final, env.llm (Prompt.second q (pyStrOpt (pyGet j "tool_name")) "Unknown tool.")
            = Except.ok final →
          getContextualResponse env q chat uid cc = Except.ok ⟨final, [], "Agent Tool"⟩ := by
  have hdisp : dispatchTool env (pyGet j "tool_name")
      ((pyGet j "parameters").getD (Json.obj [])) = Except.ok "Unknown tool." := by
    unfold dispatchTool
    rw [if_neg hn1, if_neg hn2]
  refine ⟨hdisp, ?_⟩
  intro final hf
  rw [(getContextualResponse_branches env q chat uid cc o hllm).2 j hj h1 h2, hdisp]
  show (match env.llm (Prompt.second q (pyStrOpt (pyGet j "tool_name")) "Unknown tool.") with
        | Except.error e => Except.error e
        | Except.ok final =>
          Except.ok ⟨final, [], "Agent Tool"⟩ : Except PyErr RagResult)
      = Except.ok ⟨final, [], "Agent Tool"⟩
  rw [hf]

/-- Witness for C6 at the environment emitting a tool call naming the
unrecognized tool "foo". -/
theorem unknown_tool_phrased_witness :
    dispatchTool envUnknownTool
        (pyGet (Json.obj [("tool_name", Json.str "foo")]) "tool_name")
        ((pyGet (Json.obj [("tool_name", Json.str "foo")]) "parameters").getD (Json.obj []))
        = Except.ok "Unknown tool."
      ∧ getContextualResponse envUnknownTool "q" [] "tenant1" "cust1"
          = Except.ok ⟨"phrased", [], "Agent Tool"⟩ := by
  have h := unknown_tool_phrased envUnknownTool "q" [] "tenant1" "cust1"
    "\x7b\"tool_name\": \"foo\"\x7d" (Json.obj [("tool_name", Json.str "foo")])
    (by decide) (by decide) (by decide) (by decide) (by decide) (by decide)
  exact ⟨h.1, h.2 "phrased" (by decide)⟩

/- ===================== C10 ===================== -/

/-- C10: the output `toolJsonBadParam` is detected as a tool call and
names the recognized tool `log_customer_data`, yet its parameters
contain a key outside the tool's signature, so keyword-argument
expansion raises a `TypeError` that the interpreter does not catch (only
JSON decode errors are), and the request fails with an exception instead
of degrading to a text answer. -/
theorem kwargs_typeerror_uncaught :
    codeDetectsToolCall (pyStrip toolJsonBadParam) = true
      ∧ pyGet ((jsonLoads toolJsonBadParam).getD Json.null) "tool_name"
          = some (Json.str "log_customer_data")
      ∧ getContextualResponse envBadParams "q" [] "tenant1" "cust1"
          = Except.error (PyErr.typeError
              "log_customer_data() got an unexpected keyword argument") :=
  ⟨by decide, by decide, by decide⟩

end Ragbot
